import Mathlib

/-!
Verification of the padded-blocks rule (src/lib/rules/padded-blocks.js).

Embedding conventions:
  * The token-and-comment stream produced by the lexer is a `List Token`
    in source order; a token's identity is its index in that list.
  * `Loc` mirrors the `loc` objects (`loc.start`, `loc.end`); the `end`
    field is named `stop` because `end` is a Lean keyword.  Lines and
    columns are natural numbers (lines are 1-based in the host).
  * JavaScript arithmetic that can go below zero (`blockEnd - 2`,
    `column - 1`) is carried out in `Int`.
  * The host `SourceCode` object is external infrastructure (it is not
    part of the analyzed source file); its accessors are modelled from
    the spec, each marked `Modelled from the spec:` in its doc comment.
  * Fallible navigation (running off the end of the stream, where the
    JavaScript would crash dereferencing `null`) is modelled with
    `Option`; `none` is the fatal out-of-stream branch.
-/

/-- A line/column position, mirroring `loc.start` / `loc.end` objects. -/
structure Pos where
  line : Nat
  column : Nat
deriving DecidableEq, Repr

/-- A source range, mirroring a token's or node's `loc`.  The field
`stop` embeds `loc.end` (`end` is a Lean keyword). -/
structure Loc where
  start : Pos
  stop : Pos
deriving DecidableEq, Repr

/-- A token or comment of the stream.  `type` is the host's `type`
string: comments have type `"Line"` or `"Block"`; code tokens carry
other type strings such as `"Punctuator"` or `"Identifier"`. -/
structure Token where
  type : String
  loc : Loc
deriving DecidableEq, Repr

/-- The token-and-comment stream, in source order, comments included. -/
structure SourceCode where
  tokens : List Token
deriving DecidableEq, Repr

/-- A block-like AST node: a `"BlockStatement"` or a `"SwitchStatement"`.
`bodyLen` is `node.body.length` (blocks), `casesLen` is
`node.cases.length` (switches); `firstTokIdx` / `lastTokIdx` are the
stream indices of the node's first and last own tokens, and
`firstCaseTokIdx` is the stream index of the first token of `cases[0]`
(meaningful for non-empty switches only). -/
structure Node where
  type : String
  bodyLen : Nat
  casesLen : Nat
  firstTokIdx : Nat
  lastTokIdx : Nat
  firstCaseTokIdx : Nat
  loc : Loc
deriving DecidableEq, Repr

/-- Modelled from the spec: `nextTokenOrComment` returns the adjacent
token or comment in source order (comments included); it fails past
the end of the stream.  The host function is
`sourceCode.getTokenOrCommentAfter`, which is not part of the analyzed
source file. -/
def SourceCode.getTokenOrCommentAfter (src : SourceCode) (i : Nat) : Option Token :=
  src.tokens[i + 1]?

/-- Modelled from the spec: `previousTokenOrComment`, symmetric to
`nextTokenOrComment`; fails past the start of the stream.  The host
function is `sourceCode.getTokenOrCommentBefore`. -/
def SourceCode.getTokenOrCommentBefore (src : SourceCode) (i : Nat) : Option Token :=
  if i = 0 then none else src.tokens[i - 1]?

/-- Modelled from the spec: `sourceCode.getTokenBefore(node.cases[0])`
returns the token immediately preceding the first case clause, i.e. the
stream position just before the first token of `cases[0]`. -/
def SourceCode.getTokenBeforeIdx (src : SourceCode) (i : Nat) : Option Nat :=
  if i = 0 then none else some (i - 1)

/-- Modelled from the spec: `sourceCode.getFirstToken(node)` returns the
node's first token (for a block, its opening brace). -/
def SourceCode.getFirstTokenIdx (src : SourceCode) (node : Node) : Option Nat :=
  some node.firstTokIdx

/-- Modelled from the spec: `sourceCode.getLastToken(node)` returns the
final token belonging to the node's range. -/
def SourceCode.getLastTokenIdx (src : SourceCode) (node : Node) : Option Nat :=
  some node.lastTokIdx

/-- The rule's `getOpenBrace`: dispatches on `node.type`; a switch's
opening delimiter is the token before its first case clause, a block's
is its first token. -/
def getOpenBrace (src : SourceCode) (node : Node) : Option Nat :=
  if node.type == "SwitchStatement" then
    src.getTokenBeforeIdx node.firstCaseTokIdx
  else
    src.getFirstTokenIdx node

/-- The rule's `isComment`: `node.type === "Line" || node.type === "Block"`. -/
def isComment (t : Token) : Bool :=
  t.type == "Line" || t.type == "Block"

/-- The do-while loop of `isBlockTopPadded`: starting just after the
open brace, repeatedly fetch the next token-or-comment while it is a
comment whose start line equals `blockStart`.  Walking forward from
stream index `i` visits exactly the suffix `tokens.drop (i + 1)`, so
the loop is a structural scan of that suffix; an empty remainder is the
out-of-stream crash, modelled as `none`. -/
def firstAfterLoop (blockStart : Nat) : List Token → Option Token
  | [] => none
  | t :: rest =>
    if isComment t && t.loc.start.line == blockStart then
      firstAfterLoop blockStart rest
    else
      some t

/-- The do-while loop of `isBlockBottomPadded`: starting just before the
close brace, repeatedly fetch the previous token-or-comment while it is
a comment whose end line equals `blockEnd`.  Walking backward from
stream index `i` visits exactly `(tokens.take i).reverse`. -/
def lastBeforeLoop (blockEnd : Nat) : List Token → Option Token
  | [] => none
  | t :: rest =>
    if isComment t && t.loc.stop.line == blockEnd then
      lastBeforeLoop blockEnd rest
    else
      some t

/-- The rule's `isBlockTopPadded` on a non-empty block-like node:
`expectedFirstLine = blockStart + 2`; walk forward from the open brace
skipping comments on `blockStart`; return `expectedFirstLine <= firstLine`. -/
def isBlockTopPadded (src : SourceCode) (node : Node) : Option Bool := do
  let obIdx ← getOpenBrace src node
  let openBrace ← src.tokens[obIdx]?
  let blockStart := openBrace.loc.start.line
  let expectedFirstLine := blockStart + 2
  let first ← firstAfterLoop blockStart (src.tokens.drop (obIdx + 1))
  pure (decide (expectedFirstLine ≤ first.loc.start.line))

/-- The rule's `isBlockBottomPadded` on a non-empty block-like node:
`expectedLastLine = blockEnd - 2` (kept in `Int`, as the JavaScript
value may be negative); walk backward from the close brace skipping
comments ending on `blockEnd`; return `lastLine <= expectedLastLine`. -/
def isBlockBottomPadded (src : SourceCode) (node : Node) : Option Bool := do
  let closeIdx ← src.getLastTokenIdx node
  let closeBrace ← src.tokens[closeIdx]?
  let blockEnd := closeBrace.loc.stop.line
  let expectedLastLine : Int := (blockEnd : Int) - 2
  let last ← lastBeforeLoop blockEnd ((src.tokens.take closeIdx).reverse)
  pure (decide ((last.loc.stop.line : Int) ≤ expectedLastLine))

/-- The `ALWAYS_MESSAGE` string constant of the rule. -/
def ALWAYS_MESSAGE : String := "Block must be padded by blank lines."

/-- The `NEVER_MESSAGE` string constant of the rule. -/
def NEVER_MESSAGE : String := "Block must not be padded by blank lines."

/-- A reported problem.  `line`/`column` are `Int` because the column of
a bottom-edge report is `node.loc.end.column - 1`, a JavaScript
subtraction. -/
structure Diagnostic where
  node : Node
  line : Int
  column : Int
  message : String
deriving DecidableEq, Repr

/-- Modelled from the spec: `context.report(node, message)` reports at
the node's own start.  `context.report` is host infrastructure, not part
of the analyzed source file. -/
def reportNode (node : Node) (message : String) : Diagnostic :=
  { node := node
    line := (node.loc.start.line : Int)
    column := (node.loc.start.column : Int)
    message := message }

/-- The explicit-`loc` report used for the bottom edge:
`{line: node.loc.end.line, column: node.loc.end.column - 1}`. -/
def reportLoc (node : Node) (message : String) : Diagnostic :=
  { node := node
    line := (node.loc.stop.line : Int)
    column := (node.loc.stop.column : Int) - 1
    message := message }

/-- The rule's `checkPadding`: computes both padding booleans, then
emits by policy — under `requirePadding` a top report when `!top` and a
bottom report when `!bottom`, otherwise a top report when `top` and a
bottom report when `bottom`; the emitted list keeps the source's
emission order (top edge first). -/
def checkPadding (requirePadding : Bool) (src : SourceCode) (node : Node) :
    Option (List Diagnostic) := do
  let blockHasTopPadding ← isBlockTopPadded src node
  let blockHasBottomPadding ← isBlockBottomPadded src node
  if requirePadding then
    pure ((if !blockHasTopPadding then [reportNode node ALWAYS_MESSAGE] else []) ++
          (if !blockHasBottomPadding then [reportLoc node ALWAYS_MESSAGE] else []))
  else
    pure ((if blockHasTopPadding then [reportNode node NEVER_MESSAGE] else []) ++
          (if blockHasBottomPadding then [reportLoc node NEVER_MESSAGE] else []))

/-- The rule's `SwitchStatement` visitor: empty case list emits nothing,
otherwise `checkPadding`. -/
def visitSwitchStatement (requirePadding : Bool) (src : SourceCode) (node : Node) :
    Option (List Diagnostic) :=
  if node.casesLen == 0 then some [] else checkPadding requirePadding src node

/-- The rule's `BlockStatement` visitor: empty body emits nothing,
otherwise `checkPadding`. -/
def visitBlockStatement (requirePadding : Bool) (src : SourceCode) (node : Node) :
    Option (List Diagnostic) :=
  if node.bodyLen == 0 then some [] else checkPadding requirePadding src node

/-- The policy wiring: `requirePadding = context.options[0] !== "never"`. -/
def requirePaddingOf (options : List String) : Bool :=
  options[0]? != some "never"

/-- Scenario 1 stream: the text `{\n    foo();\n}` — brace on line 1,
statement on line 2, closing brace on line 3. -/
def srcA : SourceCode :=
  ⟨[⟨"Punctuator", ⟨⟨1, 0⟩, ⟨1, 1⟩⟩⟩,
    ⟨"Identifier", ⟨⟨2, 4⟩, ⟨2, 7⟩⟩⟩,
    ⟨"Punctuator", ⟨⟨2, 7⟩, ⟨2, 8⟩⟩⟩,
    ⟨"Punctuator", ⟨⟨2, 8⟩, ⟨2, 9⟩⟩⟩,
    ⟨"Punctuator", ⟨⟨2, 9⟩, ⟨2, 10⟩⟩⟩,
    ⟨"Punctuator", ⟨⟨3, 0⟩, ⟨3, 1⟩⟩⟩]⟩

/-- The block node of scenario 1: one statement, tokens 0 through 5. -/
def nodeA : Node :=
  ⟨"BlockStatement", 1, 0, 0, 5, 0, ⟨⟨1, 0⟩, ⟨3, 1⟩⟩⟩

/-- Scenario 5 stream: the text `{\n    // comment\n    foo();\n}` —
brace on line 1, a line comment on line 2, statement on line 3, closing
brace on line 4. -/
def src8 : SourceCode :=
  ⟨[⟨"Punctuator", ⟨⟨1, 0⟩, ⟨1, 1⟩⟩⟩,
    ⟨"Line", ⟨⟨2, 4⟩, ⟨2, 14⟩⟩⟩,
    ⟨"Identifier", ⟨⟨3, 4⟩, ⟨3, 7⟩⟩⟩,
    ⟨"Punctuator", ⟨⟨3, 7⟩, ⟨3, 8⟩⟩⟩,
    ⟨"Punctuator", ⟨⟨3, 8⟩, ⟨3, 9⟩⟩⟩,
    ⟨"Punctuator", ⟨⟨3, 9⟩, ⟨3, 10⟩⟩⟩,
    ⟨"Punctuator", ⟨⟨4, 0⟩, ⟨4, 1⟩⟩⟩]⟩

/-- The block node of scenario 5: one statement, tokens 0 through 6. -/
def node8 : Node :=
  ⟨"BlockStatement", 1, 0, 0, 6, 0, ⟨⟨1, 0⟩, ⟨4, 1⟩⟩⟩

/-- Scenario 4 stream: `switch (x) {\n\n    case 1: break;\n\n}` — the
switch header on line 1, the case clause on line 3 (tokens 5 to 9),
closing brace on line 5. -/
def srcS : SourceCode :=
  ⟨[⟨"Keyword", ⟨⟨1, 0⟩, ⟨1, 6⟩⟩⟩,
    ⟨"Punctuator", ⟨⟨1, 7⟩, ⟨1, 8⟩⟩⟩,
    ⟨"Identifier", ⟨⟨1, 8⟩, ⟨1, 9⟩⟩⟩,
    ⟨"Punctuator", ⟨⟨1, 9⟩, ⟨1, 10⟩⟩⟩,
    ⟨"Punctuator", ⟨⟨1, 11⟩, ⟨1, 12⟩⟩⟩,
    ⟨"Keyword", ⟨⟨3, 4⟩, ⟨3, 8⟩⟩⟩,
    ⟨"Numeric", ⟨⟨3, 9⟩, ⟨3, 10⟩⟩⟩,
    ⟨"Punctuator", ⟨⟨3, 10⟩, ⟨3, 11⟩⟩⟩,
    ⟨"Keyword", ⟨⟨3, 12⟩, ⟨3, 17⟩⟩⟩,
    ⟨"Punctuator", ⟨⟨3, 17⟩, ⟨3, 18⟩⟩⟩,
    ⟨"Punctuator", ⟨⟨5, 0⟩, ⟨5, 1⟩⟩⟩]⟩

/-- The switch node of scenario 4: one case clause whose first token is
stream index 5; the node spans tokens 0 through 10. -/
def nodeS : Node :=
  ⟨"SwitchStatement", 0, 1, 0, 10, 5, ⟨⟨1, 0⟩, ⟨5, 1⟩⟩⟩

/-- An empty Statement Block (`{}` on line 1): no statements. -/
def nodeEmptyBlock : Node :=
  ⟨"BlockStatement", 0, 0, 0, 1, 0, ⟨⟨1, 0⟩, ⟨1, 2⟩⟩⟩

/-- An empty Switch Construct: zero case clauses. -/
def nodeEmptySwitch : Node :=
  ⟨"SwitchStatement", 0, 0, 0, 5, 0, ⟨⟨1, 0⟩, ⟨1, 14⟩⟩⟩

/-- A token transparent to the forward walk: a comment whose start line
equals the opening delimiter's start line. -/
def SkippedAtTop (openLine : Nat) (t : Token) : Prop :=
  isComment t = true ∧ t.loc.start.line = openLine

instance (openLine : Nat) (t : Token) : Decidable (SkippedAtTop openLine t) :=
  decidable_of_iff (isComment t = true ∧ t.loc.start.line = openLine) Iff.rfl

/-- A token transparent to the backward walk: a comment whose end line
equals the closing token's end line. -/
def SkippedAtBottom (closeLine : Nat) (t : Token) : Prop :=
  isComment t = true ∧ t.loc.stop.line = closeLine

instance (closeLine : Nat) (t : Token) : Decidable (SkippedAtBottom closeLine t) :=
  decidable_of_iff (isComment t = true ∧ t.loc.stop.line = closeLine) Iff.rfl

/-- The claim's description of the forward walk: `j` is the position of
the first token-or-comment strictly after `obIdx` that is not a comment
starting on `openLine` (every position strictly between `obIdx` and `j`
is such a comment). -/
def FirstAfterOpen (src : SourceCode) (openLine obIdx j : Nat) : Prop :=
  obIdx < j ∧
  ∃ hj : j < src.tokens.length,
    ¬ SkippedAtTop openLine (src.tokens.get ⟨j, hj⟩) ∧
    ∀ k (hk : k < src.tokens.length), obIdx < k → k < j →
      SkippedAtTop openLine (src.tokens.get ⟨k, hk⟩)

/-- The claim's description of the backward walk: `j` is the position of
the first token-or-comment strictly before `closeIdx` (walking toward
the start) that is not a comment ending on `closeLine`. -/
def LastBeforeClose (src : SourceCode) (closeLine closeIdx j : Nat) : Prop :=
  j < closeIdx ∧
  ∃ hj : j < src.tokens.length,
    ¬ SkippedAtBottom closeLine (src.tokens.get ⟨j, hj⟩) ∧
    ∀ k (hk : k < src.tokens.length), j < k → k < closeIdx →
      SkippedAtBottom closeLine (src.tokens.get ⟨k, hk⟩)

/-- The message string the policy selects for both edges. -/
def msgOf (requirePadding : Bool) : String :=
  if requirePadding then ALWAYS_MESSAGE else NEVER_MESSAGE

/-- The Boolean skip condition of the forward do-while loop holds
exactly when the token is transparent to the forward walk. -/
theorem skippedAtTop_iff (openLine : Nat) (t : Token) :
    (isComment t && t.loc.start.line == openLine) = true ↔ SkippedAtTop openLine t := by
  simp [SkippedAtTop, Bool.and_eq_true, beq_iff_eq]

/-- The Boolean skip condition of the backward do-while loop holds
exactly when the token is transparent to the backward walk. -/
theorem skippedAtBottom_iff (closeLine : Nat) (t : Token) :
    (isComment t && t.loc.stop.line == closeLine) = true ↔ SkippedAtBottom closeLine t := by
  simp [SkippedAtBottom, Bool.and_eq_true, beq_iff_eq]

/-- The forward loop lands on position `m` of the scanned list when
everything before `m` is transparent and `m` itself is not. -/
theorem firstAfterLoop_eq_get (openLine : Nat) (l : List Token) :
    ∀ (m : Nat) (hm : m < l.length),
      ¬ SkippedAtTop openLine (l.get ⟨m, hm⟩) →
      (∀ k (hk : k < l.length), k < m → SkippedAtTop openLine (l.get ⟨k, hk⟩)) →
      firstAfterLoop openLine l = some (l.get ⟨m, hm⟩) := by
  induction l with
  | nil => intro m hm; exact absurd hm (by simp)
  | cons t rest ih =>
    intro m hm hstop hskip
    cases m with
    | zero =>
      have hc : (isComment t && t.loc.start.line == openLine) = false := by
        rw [Bool.eq_false_iff]
        intro hc
        exact hstop ((skippedAtTop_iff openLine t).mp hc)
      simp [firstAfterLoop, hc]
    | succ m =>
      have h0 : SkippedAtTop openLine t := hskip 0 (by simp) (Nat.succ_pos m)
      have hc : (isComment t && t.loc.start.line == openLine) = true :=
        (skippedAtTop_iff openLine t).mpr h0
      have hm' : m < rest.length := by simpa using hm
      have hstop' : ¬ SkippedAtTop openLine (rest.get ⟨m, hm'⟩) := by
        simpa using hstop
      have hskip' : ∀ k (hk : k < rest.length), k < m →
          SkippedAtTop openLine (rest.get ⟨k, hk⟩) := by
        intro k hk hkm
        have := hskip (k + 1) (by simpa using Nat.succ_lt_succ hk) (Nat.succ_lt_succ hkm)
        simpa using this
      simp only [firstAfterLoop, hc, if_true]
      rw [ih m hm' hstop' hskip']
      simp

/-- The backward loop lands on position `m` of the scanned list when
everything before `m` is transparent and `m` itself is not. -/
theorem lastBeforeLoop_eq_get (closeLine : Nat) (l : List Token) :
    ∀ (m : Nat) (hm : m < l.length),
      ¬ SkippedAtBottom closeLine (l.get ⟨m, hm⟩) →
      (∀ k (hk : k < l.length), k < m → SkippedAtBottom closeLine (l.get ⟨k, hk⟩)) →
      lastBeforeLoop closeLine l = some (l.get ⟨m, hm⟩) := by
  induction l with
  | nil => intro m hm; exact absurd hm (by simp)
  | cons t rest ih =>
    intro m hm hstop hskip
    cases m with
    | zero =>
      have hc : (isComment t && t.loc.stop.line == closeLine) = false := by
        rw [Bool.eq_false_iff]
        intro hc
        exact hstop ((skippedAtBottom_iff closeLine t).mp hc)
      simp [lastBeforeLoop, hc]
    | succ m =>
      have h0 : SkippedAtBottom closeLine t := hskip 0 (by simp) (Nat.succ_pos m)
      have hc : (isComment t && t.loc.stop.line == closeLine) = true :=
        (skippedAtBottom_iff closeLine t).mpr h0
      have hm' : m < rest.length := by simpa using hm
      have hstop' : ¬ SkippedAtBottom closeLine (rest.get ⟨m, hm'⟩) := by
        simpa using hstop
      have hskip' : ∀ k (hk : k < rest.length), k < m →
          SkippedAtBottom closeLine (rest.get ⟨k, hk⟩) := by
        intro k hk hkm
        have := hskip (k + 1) (by simpa using Nat.succ_lt_succ hk) (Nat.succ_lt_succ hkm)
        simpa using this
      simp only [lastBeforeLoop, hc, if_true]
      rw [ih m hm' hstop' hskip']
      simp

/-- Index congruence for `List.get` with propositionally equal indices. -/
theorem tok_get_congr (l : List Token) {i j : Nat} (h : i = j)
    (hi : i < l.length) (hj : j < l.length) :
    l.get ⟨i, hi⟩ = l.get ⟨j, hj⟩ := by subst h; rfl

/-- Position `k` of a dropped suffix is position `i + k` of the list. -/
theorem tok_get_drop (l : List Token) (i k : Nat) (hk : k < (l.drop i).length)
    (hk2 : i + k < l.length) :
    (l.drop i).get ⟨k, hk⟩ = l.get ⟨i + k, hk2⟩ := List.getElem_drop l

/-- Position `k` of a reversed list counts from the back of the list. -/
theorem tok_get_reverse (l : List Token) (k : Nat) (hk : k < l.reverse.length)
    (hk2 : l.length - 1 - k < l.length) :
    l.reverse.get ⟨k, hk⟩ = l.get ⟨l.length - 1 - k, hk2⟩ := List.getElem_reverse hk

/-- Position `k` of a taken prefix is position `k` of the list. -/
theorem tok_get_take (l : List Token) (n k : Nat) (hk : k < (l.take n).length)
    (hk2 : k < l.length) :
    (l.take n).get ⟨k, hk⟩ = l.get ⟨k, hk2⟩ := List.getElem_take l

/-- Scanning the suffix after `obIdx` is the forward walk: it lands on
the stream position singled out by `FirstAfterOpen`. -/
theorem firstAfterLoop_drop (src : SourceCode) (openLine obIdx j : Nat)
    (hj : j < src.tokens.length) (h : FirstAfterOpen src openLine obIdx j) :
    firstAfterLoop openLine (src.tokens.drop (obIdx + 1)) =
      some (src.tokens.get ⟨j, hj⟩) := by
  obtain ⟨hij, hj', hstop, hskip⟩ := h
  have hlen : (src.tokens.drop (obIdx + 1)).length = src.tokens.length - (obIdx + 1) := by
    simp
  have hm : j - obIdx - 1 < (src.tokens.drop (obIdx + 1)).length := by
    rw [hlen]; omega
  have hgetm : (src.tokens.drop (obIdx + 1)).get ⟨j - obIdx - 1, hm⟩ =
      src.tokens.get ⟨j, hj⟩ := by
    rw [tok_get_drop src.tokens (obIdx + 1) (j - obIdx - 1) hm (by omega)]
    exact tok_get_congr src.tokens (by omega) _ hj
  rw [firstAfterLoop_eq_get openLine _ (j - obIdx - 1) hm
    (by rw [hgetm]; exact hstop)
    (by
      intro k hk hkm
      have hk' : obIdx + 1 + k < src.tokens.length := by
        rw [hlen] at hk; omega
      rw [tok_get_drop src.tokens (obIdx + 1) k hk hk']
      exact hskip (obIdx + 1 + k) hk' (by omega) (by omega))]
  rw [hgetm]

/-- Scanning the reversed prefix before `closeIdx` is the backward walk:
it lands on the stream position singled out by `LastBeforeClose`. -/
theorem lastBeforeLoop_take_reverse (src : SourceCode) (closeLine closeIdx j : Nat)
    (hcl : closeIdx ≤ src.tokens.length) (hj : j < src.tokens.length)
    (h : LastBeforeClose src closeLine closeIdx j) :
    lastBeforeLoop closeLine ((src.tokens.take closeIdx).reverse) =
      some (src.tokens.get ⟨j, hj⟩) := by
  obtain ⟨hjc, hj', hstop, hskip⟩ := h
  have hlen : ((src.tokens.take closeIdx).reverse).length = closeIdx := by
    simp; omega
  have hlent : (src.tokens.take closeIdx).length = closeIdx := by
    simp; omega
  have hm : closeIdx - 1 - j < ((src.tokens.take closeIdx).reverse).length := by
    rw [hlen]; omega
  have hgen : ∀ (k : Nat) (hk : k < ((src.tokens.take closeIdx).reverse).length)
      (hk' : closeIdx - 1 - k < src.tokens.length),
      ((src.tokens.take closeIdx).reverse).get ⟨k, hk⟩ =
        src.tokens.get ⟨closeIdx - 1 - k, hk'⟩ := by
    intro k hk hk'
    have hk1 : (src.tokens.take closeIdx).length - 1 - k <
        (src.tokens.take closeIdx).length := by
      rw [hlent]; rw [hlen] at hk; omega
    have hk2 : (src.tokens.take closeIdx).length - 1 - k < src.tokens.length := by
      rw [hlent]; omega
    rw [tok_get_reverse (src.tokens.take closeIdx) k hk hk1]
    rw [tok_get_take src.tokens closeIdx _ hk1 hk2]
    exact tok_get_congr src.tokens (by rw [hlent]) hk2 hk'
  have hgetm : ((src.tokens.take closeIdx).reverse).get ⟨closeIdx - 1 - j, hm⟩ =
      src.tokens.get ⟨j, hj⟩ := by
    rw [hgen (closeIdx - 1 - j) hm (by omega)]
    exact tok_get_congr src.tokens (by omega) _ hj
  rw [lastBeforeLoop_eq_get closeLine _ (closeIdx - 1 - j) hm
    (by rw [hgetm]; exact hstop)
    (by
      intro k hk hkm
      have hk' : closeIdx - 1 - k < src.tokens.length := by omega
      rw [hgen k hk hk']
      exact hskip (closeIdx - 1 - k) hk' (by omega) (by omega))]
  rw [hgetm]

/-- C1: for every non-empty block-like node, `isBlockTopPadded` returns
true if and only if, starting from the opening delimiter and walking
forward through the token-and-comment stream while skipping every
comment whose start line equals the delimiter's start line, the first
token reached has a start line at least the delimiter's start line
plus 2. -/
theorem isBlockTopPadded_characterization (src : SourceCode) (node : Node)
    (obIdx j : Nat) (hob : getOpenBrace src node = some obIdx)
    (hoblt : obIdx < src.tokens.length) (hjlt : j < src.tokens.length)
    (hfirst : FirstAfterOpen src ((src.tokens.get ⟨obIdx, hoblt⟩).loc.start.line) obIdx j) :
    isBlockTopPadded src node =
      some (decide ((src.tokens.get ⟨obIdx, hoblt⟩).loc.start.line + 2 ≤
        (src.tokens.get ⟨j, hjlt⟩).loc.start.line)) := by
  have hidx : src.tokens[obIdx]? = some src.tokens[obIdx] :=
    List.getElem?_eq_getElem hoblt
  have hloop : firstAfterLoop (src.tokens[obIdx].loc.start.line)
      (src.tokens.drop (obIdx + 1)) = some src.tokens[j] :=
    firstAfterLoop_drop src ((src.tokens.get ⟨obIdx, hoblt⟩).loc.start.line) obIdx j hjlt hfirst
  simp [isBlockTopPadded, hob, hidx, hloop, List.get_eq_getElem]

/-- The witness input of C1: on scenario 1 the walk from the brace on
line 1 reaches the statement token on line 2, so the block is not
top-padded. -/
theorem isBlockTopPadded_characterization_witness :
    isBlockTopPadded srcA nodeA = some false := by
  have h := isBlockTopPadded_characterization srcA nodeA 0 1 (by decide) (by decide)
    (by decide)
    ⟨Nat.zero_lt_one, by decide, by decide,
      fun k hk h1 h2 => absurd h2 (Nat.not_lt.mpr h1)⟩
  rw [h]
  decide

/-- C2: for every non-empty block-like node, `isBlockBottomPadded`
returns true if and only if, starting from the node's last token and
walking backward through the token-and-comment stream while skipping
every comment whose end line equals the closing token's end line, the
token reached has an end line at most the closing token's end line
minus 2. -/
theorem isBlockBottomPadded_characterization (src : SourceCode) (node : Node)
    (j : Nat) (hclt : node.lastTokIdx < src.tokens.length) (hjlt : j < src.tokens.length)
    (hlast : LastBeforeClose src ((src.tokens.get ⟨node.lastTokIdx, hclt⟩).loc.stop.line)
      node.lastTokIdx j) :
    isBlockBottomPadded src node =
      some (decide (((src.tokens.get ⟨j, hjlt⟩).loc.stop.line : Int) ≤
        ((src.tokens.get ⟨node.lastTokIdx, hclt⟩).loc.stop.line : Int) - 2)) := by
  have hidx : src.tokens[node.lastTokIdx]? = some src.tokens[node.lastTokIdx] :=
    List.getElem?_eq_getElem hclt
  have hloop : lastBeforeLoop (src.tokens[node.lastTokIdx].loc.stop.line)
      ((src.tokens.take node.lastTokIdx).reverse) = some src.tokens[j] :=
    lastBeforeLoop_take_reverse src
      ((src.tokens.get ⟨node.lastTokIdx, hclt⟩).loc.stop.line) node.lastTokIdx j
      (Nat.le_of_lt hclt) hjlt hlast
  simp [isBlockBottomPadded, SourceCode.getLastTokenIdx, hidx, hloop, List.get_eq_getElem]

/-- The witness input of C2: on scenario 1 the backward walk from the
closing brace on line 3 reaches the semicolon ending on line 2, so the
block is not bottom-padded. -/
theorem isBlockBottomPadded_characterization_witness :
    isBlockBottomPadded srcA nodeA = some false := by
  have h := isBlockBottomPadded_characterization srcA nodeA 4 (by decide) (by decide)
    ⟨by decide, by decide, by decide,
      fun k hk h1 h2 => absurd h2 (Nat.not_lt.mpr h1)⟩
  rw [h]
  decide

/-- Closed form of `checkPadding` once both padding booleans are known:
an edge's report appears exactly when the policy disagrees with the
edge's padding boolean, top edge first. -/
theorem checkPadding_eq (rp : Bool) (src : SourceCode) (node : Node) (top bot : Bool)
    (htop : isBlockTopPadded src node = some top)
    (hbot : isBlockBottomPadded src node = some bot) :
    checkPadding rp src node = some (
      (if rp != top then [reportNode node (msgOf rp)] else []) ++
      (if rp != bot then [reportLoc node (msgOf rp)] else [])) := by
  cases rp <;> cases top <;> cases bot <;>
    simp [checkPadding, htop, hbot, msgOf]

/-- C3: a top-edge diagnostic is emitted iff (`ALWAYS_PAD` and the top is
unpadded) or (`NEVER_PAD` and the top is padded); analogously for the
bottom edge; every diagnostic under `ALWAYS_PAD` carries exactly
"Block must be padded by blank lines." and every diagnostic under
`NEVER_PAD` exactly "Block must not be padded by blank lines.", the
same string for both edges. -/
theorem checkPadding_emission_and_messages (rp : Bool) (src : SourceCode) (node : Node)
    (top bot : Bool) (htop : isBlockTopPadded src node = some top)
    (hbot : isBlockBottomPadded src node = some bot) :
    checkPadding rp src node = some (
      (if (rp = true ∧ top = false) ∨ (rp = false ∧ top = true)
        then [reportNode node (msgOf rp)] else []) ++
      (if (rp = true ∧ bot = false) ∨ (rp = false ∧ bot = true)
        then [reportLoc node (msgOf rp)] else [])) ∧
    msgOf true = "Block must be padded by blank lines." ∧
    msgOf false = "Block must not be padded by blank lines." := by
  refine ⟨?_, rfl, rfl⟩
  rw [checkPadding_eq rp src node top bot htop hbot]
  cases rp <;> cases top <;> cases bot <;> simp

/-- The witness input of C3: scenario 1 under `ALWAYS_PAD` (both edges
unpadded) emits a top report and a bottom report with the "must be
padded" message. -/
theorem checkPadding_emission_and_messages_witness :
    checkPadding true srcA nodeA =
      some [reportNode nodeA (msgOf true), reportLoc nodeA (msgOf true)] := by
  have h := checkPadding_emission_and_messages true srcA nodeA false false
    (by decide) (by decide)
  rw [h.1]
  simp

/-- C4: empty Statement Blocks and Switch Constructs with zero case
clauses make the visitor emit no diagnostic, under either policy. -/
theorem visitors_skip_empty_nodes (rp : Bool) (src : SourceCode) (node : Node) :
    (node.bodyLen = 0 → visitBlockStatement rp src node = some []) ∧
    (node.casesLen = 0 → visitSwitchStatement rp src node = some []) := by
  constructor <;> intro h <;>
    simp [visitBlockStatement, visitSwitchStatement, h]

/-- The witness input of C4: an empty block and an empty switch emit
nothing under either policy. -/
theorem visitors_skip_empty_nodes_witness :
    visitBlockStatement true srcA nodeEmptyBlock = some [] ∧
    visitSwitchStatement false srcA nodeEmptySwitch = some [] :=
  ⟨(visitors_skip_empty_nodes true srcA nodeEmptyBlock).1 rfl,
   (visitors_skip_empty_nodes false srcA nodeEmptySwitch).2 rfl⟩

/-- C5: `getOpenBrace` returns a Statement Block's first token and, for
a switch whose first case clause is not the very first stream token, the
token immediately preceding the first case clause in the
token-and-comment stream. -/
theorem getOpenBrace_delimiter (src : SourceCode) (node : Node) :
    (node.type = "BlockStatement" → getOpenBrace src node = some node.firstTokIdx) ∧
    (node.type = "SwitchStatement" → 0 < node.firstCaseTokIdx →
      getOpenBrace src node = some (node.firstCaseTokIdx - 1)) := by
  constructor
  · intro h
    simp [getOpenBrace, h, SourceCode.getFirstTokenIdx]
  · intro h h2
    simp only [getOpenBrace, h, SourceCode.getTokenBeforeIdx]
    rw [if_pos (by rfl), if_neg (by omega)]

/-- The witness input of C5: the scenario 1 block's delimiter is token 0
and the scenario 4 switch's delimiter is token 4, the brace just before
the first `case` token at index 5. -/
theorem getOpenBrace_delimiter_witness :
    getOpenBrace srcA nodeA = some 0 ∧ getOpenBrace srcS nodeS = some 4 :=
  ⟨(getOpenBrace_delimiter srcA nodeA).1 rfl,
   (getOpenBrace_delimiter srcS nodeS).2 rfl (by decide)⟩

/-- C6: an analyzed node yields at most two diagnostics, and the count
decomposes into a top-edge contribution depending only on the top
padding boolean and a bottom-edge contribution depending only on the
bottom padding boolean. -/
theorem checkPadding_diagnostic_count (rp : Bool) (src : SourceCode) (node : Node)
    (top bot : Bool) (ds : List Diagnostic)
    (htop : isBlockTopPadded src node = some top)
    (hbot : isBlockBottomPadded src node = some bot)
    (hds : checkPadding rp src node = some ds) :
    ds.length ≤ 2 ∧
    ds.length = (if rp != top then 1 else 0) + (if rp != bot then 1 else 0) := by
  rw [checkPadding_eq rp src node top bot htop hbot] at hds
  have h := Option.some.inj hds
  subst h
  cases rp <;> cases top <;> cases bot <;> simp

/-- The witness input of C6: scenario 1 under `ALWAYS_PAD` yields two
diagnostics, one per unpadded edge. -/
theorem checkPadding_diagnostic_count_witness :
    ∃ ds, checkPadding true srcA nodeA = some ds ∧ ds.length = 2 := by
  refine ⟨[reportNode nodeA ALWAYS_MESSAGE, reportLoc nodeA ALWAYS_MESSAGE], by decide, ?_⟩
  have h := checkPadding_diagnostic_count true srcA nodeA false false
    [reportNode nodeA ALWAYS_MESSAGE, reportLoc nodeA ALWAYS_MESSAGE]
    (by decide) (by decide) (by decide)
  rw [h.2]
  decide

/-- C7: every emitted diagnostic is either the top-edge report, located
at the node's own start, or the bottom-edge report, located at the
closing delimiter's line with column its end column minus 1. -/
theorem checkPadding_locations (rp : Bool) (src : SourceCode) (node : Node)
    (top bot : Bool) (ds : List Diagnostic)
    (htop : isBlockTopPadded src node = some top)
    (hbot : isBlockBottomPadded src node = some bot)
    (hds : checkPadding rp src node = some ds) :
    ∀ d ∈ ds,
      (d = reportNode node (msgOf rp) ∧ d.line = (node.loc.start.line : Int) ∧
        d.column = (node.loc.start.column : Int)) ∨
      (d = reportLoc node (msgOf rp) ∧ d.line = (node.loc.stop.line : Int) ∧
        d.column = (node.loc.stop.column : Int) - 1) := by
  rw [checkPadding_eq rp src node top bot htop hbot] at hds
  have h := Option.some.inj hds
  subst h
  intro d hd
  rcases List.mem_append.mp hd with hmem | hmem
  · left
    rcases Bool.eq_false_or_eq_true (rp != top) with hc | hc <;> rw [hc] at hmem <;>
      simp at hmem
    subst hmem
    exact ⟨rfl, rfl, rfl⟩
  · right
    rcases Bool.eq_false_or_eq_true (rp != bot) with hc | hc <;> rw [hc] at hmem <;>
      simp at hmem
    subst hmem
    exact ⟨rfl, rfl, rfl⟩

/-- The witness input of C7: in scenario 1 under `ALWAYS_PAD`, the
bottom report sits at line 3 column 0 (the closing brace's end column 1
minus 1) and the top report at the node's start. -/
theorem checkPadding_locations_witness :
    (reportLoc nodeA (msgOf true) = reportNode nodeA (msgOf true) ∧
      (reportLoc nodeA (msgOf true)).line = (nodeA.loc.start.line : Int) ∧
      (reportLoc nodeA (msgOf true)).column = (nodeA.loc.start.column : Int)) ∨
    (reportLoc nodeA (msgOf true) = reportLoc nodeA (msgOf true) ∧
      (reportLoc nodeA (msgOf true)).line = (nodeA.loc.stop.line : Int) ∧
      (reportLoc nodeA (msgOf true)).column = (nodeA.loc.stop.column : Int) - 1) :=
  checkPadding_locations true srcA nodeA false false
    [reportNode nodeA (msgOf true), reportLoc nodeA (msgOf true)]
    (by decide) (by decide) (by decide)
    (reportLoc nodeA (msgOf true)) (by decide)

/-- C10: when an analyzed node violates both edges, the top-edge
diagnostic precedes the bottom-edge diagnostic in the emitted sequence,
under either policy. -/
theorem checkPadding_top_before_bottom (rp : Bool) (src : SourceCode) (node : Node)
    (top bot : Bool)
    (htop : isBlockTopPadded src node = some top)
    (hbot : isBlockBottomPadded src node = some bot)
    (hT : (rp != top) = true) (hB : (rp != bot) = true) :
    checkPadding rp src node =
      some [reportNode node (msgOf rp), reportLoc node (msgOf rp)] := by
  rw [checkPadding_eq rp src node top bot htop hbot, hT, hB]
  simp

/-- The witness input of C10: scenario 1 under `ALWAYS_PAD` violates
both edges and the top report comes first. -/
theorem checkPadding_top_before_bottom_witness :
    checkPadding true srcA nodeA =
      some [reportNode nodeA (msgOf true), reportLoc nodeA (msgOf true)] :=
  checkPadding_top_before_bottom true srcA nodeA false false
    (by decide) (by decide) (by decide) (by decide)

/-- C8: in the block `{` newline `// comment` newline `foo();` newline
`}` analyzed under `ALWAYS_PAD`, the comment on line 2 is the first
token the forward walk reaches (it does not share the brace's line), its
start line 2 falls short of the required line 3, so the block is not
top-padded and a top-edge diagnostic is emitted (first in the output). -/
theorem scenario_comment_line2_top_diagnostic :
    firstAfterLoop 1 (src8.tokens.drop 1) = some ⟨"Line", ⟨⟨2, 4⟩, ⟨2, 14⟩⟩⟩ ∧
    isBlockTopPadded src8 node8 = some false ∧
    visitBlockStatement true src8 node8 =
      some [reportNode node8 ALWAYS_MESSAGE, reportLoc node8 ALWAYS_MESSAGE] := by
  decide

/-- If some position of the scanned list is not transparent, the forward
loop succeeds, landing at or before that position. -/
theorem firstAfterLoop_lands (openLine : Nat) (l : List Token) :
    ∀ (m : Nat) (hm : m < l.length),
      ¬ SkippedAtTop openLine (l.get ⟨m, hm⟩) →
      ∃ (jm : Nat) (hjm : jm < l.length), jm ≤ m ∧
        firstAfterLoop openLine l = some (l.get ⟨jm, hjm⟩) := by
  induction l with
  | nil => intro m hm; exact absurd hm (by simp)
  | cons t rest ih =>
    intro m hm hstop
    by_cases hc : (isComment t && t.loc.start.line == openLine) = true
    · cases m with
      | zero =>
        exact absurd ((skippedAtTop_iff openLine t).mp hc) (by simpa using hstop)
      | succ m =>
        obtain ⟨jm, hjm, hle, heq⟩ := ih m (by simpa using hm) (by simpa using hstop)
        refine ⟨jm + 1, by simpa using Nat.succ_lt_succ hjm, Nat.succ_le_succ hle, ?_⟩
        simp only [firstAfterLoop, hc, if_true]
        rw [heq]
        simp
    · have hc2 : (isComment t && t.loc.start.line == openLine) = false :=
        Bool.eq_false_iff.mpr hc
      exact ⟨0, by simp, Nat.zero_le m, by simp [firstAfterLoop, hc2]⟩

/-- If some position of the scanned list is not transparent, the
backward loop succeeds, landing at or before that position. -/
theorem lastBeforeLoop_lands (closeLine : Nat) (l : List Token) :
    ∀ (m : Nat) (hm : m < l.length),
      ¬ SkippedAtBottom closeLine (l.get ⟨m, hm⟩) →
      ∃ (jm : Nat) (hjm : jm < l.length), jm ≤ m ∧
        lastBeforeLoop closeLine l = some (l.get ⟨jm, hjm⟩) := by
  induction l with
  | nil => intro m hm; exact absurd hm (by simp)
  | cons t rest ih =>
    intro m hm hstop
    by_cases hc : (isComment t && t.loc.stop.line == closeLine) = true
    · cases m with
      | zero =>
        exact absurd ((skippedAtBottom_iff closeLine t).mp hc) (by simpa using hstop)
      | succ m =>
        obtain ⟨jm, hjm, hle, heq⟩ := ih m (by simpa using hm) (by simpa using hstop)
        refine ⟨jm + 1, by simpa using Nat.succ_lt_succ hjm, Nat.succ_le_succ hle, ?_⟩
        simp only [lastBeforeLoop, hc, if_true]
        rw [heq]
        simp
    · have hc2 : (isComment t && t.loc.stop.line == closeLine) = false :=
        Bool.eq_false_iff.mpr hc
      exact ⟨0, by simp, Nat.zero_le m, by simp [lastBeforeLoop, hc2]⟩

/-- Position `k` of the reversed `n`-prefix is position `n - 1 - k` of
the list. -/
theorem tok_get_take_reverse (l : List Token) (n k : Nat) (hn : n ≤ l.length)
    (hk : k < ((l.take n).reverse).length) (hk2 : n - 1 - k < l.length) :
    ((l.take n).reverse).get ⟨k, hk⟩ = l.get ⟨n - 1 - k, hk2⟩ := by
  have hlent : (l.take n).length = n := by simp; omega
  have hkn : k < n := by rw [List.length_reverse, hlent] at hk; exact hk
  have hk1 : (l.take n).length - 1 - k < (l.take n).length := by rw [hlent]; omega
  have hk3 : (l.take n).length - 1 - k < l.length := by rw [hlent]; omega
  rw [tok_get_reverse (l.take n) k hk hk1, tok_get_take l n _ hk1 hk3]
  exact tok_get_congr l (by rw [hlent]) hk3 hk2

/-- C9: on a node whose opening delimiter and closing token are genuine
(non-comment) tokens with at least the closing token after the opening
one, both walks succeed without running off the stream: the forward walk
stops at or before the closing token, the backward walk stops at or
before the opening delimiter, and both padding analyses return a value
(the out-of-stream `none` branch is not taken). -/
theorem padding_walks_in_bounds (src : SourceCode) (node : Node) (obIdx : Nat)
    (hob : getOpenBrace src node = some obIdx)
    (hoblt : obIdx < src.tokens.length)
    (hcllt : node.lastTokIdx < src.tokens.length)
    (horder : obIdx < node.lastTokIdx)
    (hopen : isComment (src.tokens.get ⟨obIdx, hoblt⟩) = false)
    (hclose : isComment (src.tokens.get ⟨node.lastTokIdx, hcllt⟩) = false) :
    (∃ (j : Nat) (hj : j < src.tokens.length), obIdx < j ∧ j ≤ node.lastTokIdx ∧
      firstAfterLoop ((src.tokens.get ⟨obIdx, hoblt⟩).loc.start.line)
        (src.tokens.drop (obIdx + 1)) = some (src.tokens.get ⟨j, hj⟩)) ∧
    (∃ (j : Nat) (hj : j < src.tokens.length), obIdx ≤ j ∧ j < node.lastTokIdx ∧
      lastBeforeLoop ((src.tokens.get ⟨node.lastTokIdx, hcllt⟩).loc.stop.line)
        ((src.tokens.take node.lastTokIdx).reverse) = some (src.tokens.get ⟨j, hj⟩)) ∧
    (∃ b, isBlockTopPadded src node = some b) ∧
    (∃ b, isBlockBottomPadded src node = some b) := by
  have hidx : src.tokens[obIdx]? = some src.tokens[obIdx] :=
    List.getElem?_eq_getElem hoblt
  have hidxc : src.tokens[node.lastTokIdx]? = some src.tokens[node.lastTokIdx] :=
    List.getElem?_eq_getElem hcllt
  -- the forward walk
  have hlenD : (src.tokens.drop (obIdx + 1)).length = src.tokens.length - (obIdx + 1) := by
    simp
  have hmD : node.lastTokIdx - obIdx - 1 < (src.tokens.drop (obIdx + 1)).length := by
    rw [hlenD]; omega
  have hgetD : (src.tokens.drop (obIdx + 1)).get ⟨node.lastTokIdx - obIdx - 1, hmD⟩ =
      src.tokens.get ⟨node.lastTokIdx, hcllt⟩ := by
    rw [tok_get_drop src.tokens (obIdx + 1) (node.lastTokIdx - obIdx - 1) hmD (by omega)]
    exact tok_get_congr src.tokens (by omega) _ hcllt
  have hnsD : ¬ SkippedAtTop ((src.tokens.get ⟨obIdx, hoblt⟩).loc.start.line)
      ((src.tokens.drop (obIdx + 1)).get ⟨node.lastTokIdx - obIdx - 1, hmD⟩) := by
    rw [hgetD]
    intro hs
    exact Bool.false_ne_true (hclose ▸ hs.1)
  obtain ⟨jm, hjm, hle, heqT⟩ := firstAfterLoop_lands
    ((src.tokens.get ⟨obIdx, hoblt⟩).loc.start.line)
    (src.tokens.drop (obIdx + 1)) (node.lastTokIdx - obIdx - 1) hmD hnsD
  have hjT : obIdx + 1 + jm < src.tokens.length := by rw [hlenD] at hjm; omega
  have hgetT : (src.tokens.drop (obIdx + 1)).get ⟨jm, hjm⟩ =
      src.tokens.get ⟨obIdx + 1 + jm, hjT⟩ :=
    tok_get_drop src.tokens (obIdx + 1) jm hjm hjT
  rw [hgetT] at heqT
  -- the backward walk
  have hlenR : ((src.tokens.take node.lastTokIdx).reverse).length = node.lastTokIdx := by
    simp; omega
  have hmR : node.lastTokIdx - 1 - obIdx <
      ((src.tokens.take node.lastTokIdx).reverse).length := by
    rw [hlenR]; omega
  have hgetR : ((src.tokens.take node.lastTokIdx).reverse).get
      ⟨node.lastTokIdx - 1 - obIdx, hmR⟩ = src.tokens.get ⟨obIdx, hoblt⟩ := by
    rw [tok_get_take_reverse src.tokens node.lastTokIdx (node.lastTokIdx - 1 - obIdx)
      (Nat.le_of_lt hcllt) hmR (by omega)]
    exact tok_get_congr src.tokens (by omega) _ hoblt
  have hnsR : ¬ SkippedAtBottom ((src.tokens.get ⟨node.lastTokIdx, hcllt⟩).loc.stop.line)
      (((src.tokens.take node.lastTokIdx).reverse).get
        ⟨node.lastTokIdx - 1 - obIdx, hmR⟩) := by
    rw [hgetR]
    intro hs
    exact Bool.false_ne_true (hopen ▸ hs.1)
  obtain ⟨km, hkm, hleR, heqB⟩ := lastBeforeLoop_lands
    ((src.tokens.get ⟨node.lastTokIdx, hcllt⟩).loc.stop.line)
    ((src.tokens.take node.lastTokIdx).reverse) (node.lastTokIdx - 1 - obIdx) hmR hnsR
  have hjB : node.lastTokIdx - 1 - km < src.tokens.length := by omega
  have hgetB : ((src.tokens.take node.lastTokIdx).reverse).get ⟨km, hkm⟩ =
      src.tokens.get ⟨node.lastTokIdx - 1 - km, hjB⟩ :=
    tok_get_take_reverse src.tokens node.lastTokIdx km (Nat.le_of_lt hcllt) hkm hjB
  rw [hgetB] at heqB
  have hkmlt : km < node.lastTokIdx := by rw [hlenR] at hkm; exact hkm
  -- assemble
  have heqT2 : firstAfterLoop (src.tokens[obIdx].loc.start.line)
      (src.tokens.drop (obIdx + 1)) = some (src.tokens.get ⟨obIdx + 1 + jm, hjT⟩) := heqT
  have heqB2 : lastBeforeLoop (src.tokens[node.lastTokIdx].loc.stop.line)
      ((src.tokens.take node.lastTokIdx).reverse) =
        some (src.tokens.get ⟨node.lastTokIdx - 1 - km, hjB⟩) := heqB
  have htopv : isBlockTopPadded src node =
      some (decide (src.tokens[obIdx].loc.start.line + 2 ≤
        (src.tokens.get ⟨obIdx + 1 + jm, hjT⟩).loc.start.line)) := by
    simp [isBlockTopPadded, hob, hidx, heqT2, List.get_eq_getElem]
  have hbotv : isBlockBottomPadded src node =
      some (decide (((src.tokens.get ⟨node.lastTokIdx - 1 - km, hjB⟩).loc.stop.line : Int) ≤
        (src.tokens[node.lastTokIdx].loc.stop.line : Int) - 2)) := by
    simp [isBlockBottomPadded, SourceCode.getLastTokenIdx, hidxc, heqB2, List.get_eq_getElem]
  refine ⟨⟨obIdx + 1 + jm, hjT, by omega, by omega, heqT⟩,
    ⟨node.lastTokIdx - 1 - km, hjB, by omega, by omega, heqB⟩,
    ⟨_, htopv⟩, ⟨_, hbotv⟩⟩

/-- The witness input of C9: on scenario 1 both walks stay within the
stream and both padding analyses return a value. -/
theorem padding_walks_in_bounds_witness :
    (isBlockTopPadded srcA nodeA).isSome ∧ (isBlockBottomPadded srcA nodeA).isSome := by
  have h := padding_walks_in_bounds srcA nodeA 0 (by decide) (by decide) (by decide)
    (by decide) (by decide) (by decide)
  obtain ⟨-, -, ⟨b1, hb1⟩, ⟨b2, hb2⟩⟩ := h
  rw [hb1, hb2]
  exact ⟨rfl, rfl⟩
